import Mathlib

/-!
Verification of the goesc ESC/POS command encoder (`src/escpos/escpos.go`).

The encoder is embedded shallowly: each Go method becomes a Lean function
from the in-memory style state (`Escpos`) to the pair of the new state and
the exact byte sequence handed to the transport by that call.  Go strings
are represented by their byte sequences (`List Nat`, each element < 256);
`Escpos.Write` first decodes those bytes as UTF-8 (exactly following Go's
`utf8.DecodeRune`, including the replacement of invalid input by U+FFFD)
and then encodes the resulting code points with the GB18030 encoder from
`golang.org/x/text/encoding/simplifiedchinese`, so bytes below 0x80 pass
through unchanged and everything else becomes a multi-byte sequence.
-/

namespace Goesc

/-- Encode one Unicode code point as UTF-8 bytes (Go `utf8.EncodeRune` on a
valid, non-surrogate code point; the callers below only pass such points). -/
def utf8EncodeRune (c : Nat) : List Nat :=
  if c < 0x80 then [c]
  else if c < 0x800 then
    [0xC0 ||| (c >>> 6), 0x80 ||| (c &&& 0x3F)]
  else if c < 0x10000 then
    [0xE0 ||| (c >>> 12), 0x80 ||| ((c >>> 6) &&& 0x3F), 0x80 ||| (c &&& 0x3F)]
  else
    [0xF0 ||| (c >>> 18), 0x80 ||| ((c >>> 12) &&& 0x3F),
      0x80 ||| ((c >>> 6) &&& 0x3F), 0x80 ||| (c &&& 0x3F)]

/-- `between lo x hi` is the byte-range test `lo <= x && x <= hi`. -/
def between (lo x hi : Nat) : Bool :=
  Nat.ble lo x && Nat.ble x hi

/-- Accept-range test for the second byte of a three-byte UTF-8 sequence,
as in Go's `utf8` package (`acceptRanges`): lead 0xE0 requires 0xA0..0xBF,
lead 0xED requires 0x80..0x9F (no surrogates), otherwise 0x80..0xBF. -/
def utf8Accept3 (b0 b1 : Nat) : Bool :=
  if b0 = 0xE0 then between 0xA0 b1 0xBF
  else if b0 = 0xED then between 0x80 b1 0x9F
  else between 0x80 b1 0xBF

/-- Accept-range test for the second byte of a four-byte UTF-8 sequence,
as in Go's `utf8` package: lead 0xF0 requires 0x90..0xBF, lead 0xF4
requires 0x80..0x8F, otherwise 0x80..0xBF. -/
def utf8Accept4 (b0 b1 : Nat) : Bool :=
  if b0 = 0xF0 then between 0x90 b1 0xBF
  else if b0 = 0xF4 then between 0x80 b1 0x8F
  else between 0x80 b1 0xBF

/-- Worker for `utf8Decode`.  `fuel` bounds the number of decoding steps;
every step consumes at least one byte, so any `fuel` at least the length
of the byte list gives the full decoding (structural recursion on `fuel`
keeps the function computable by the kernel). -/
def utf8DecodeAux : Nat → List Nat → List Nat
  | 0, _ => []
  | _ + 1, [] => []
  | fuel + 1, b0 :: rest =>
    if b0 < 0x80 then
      b0 :: utf8DecodeAux fuel rest
    else if between 0xC2 b0 0xDF then
      match rest with
      | b1 :: rest1 =>
        if between 0x80 b1 0xBF then
          ((b0 - 0xC0) * 64 + (b1 - 0x80)) :: utf8DecodeAux fuel rest1
        else
          0xFFFD :: utf8DecodeAux fuel rest
      | [] => [0xFFFD]
    else if between 0xE0 b0 0xEF then
      match rest with
      | b1 :: b2 :: rest2 =>
        if utf8Accept3 b0 b1 && between 0x80 b2 0xBF then
          ((b0 - 0xE0) * 4096 + (b1 - 0x80) * 64 + (b2 - 0x80)) :: utf8DecodeAux fuel rest2
        else
          0xFFFD :: utf8DecodeAux fuel rest
      | _ => 0xFFFD :: utf8DecodeAux fuel rest
    else if between 0xF0 b0 0xF4 then
      match rest with
      | b1 :: b2 :: b3 :: rest3 =>
        if utf8Accept4 b0 b1 && between 0x80 b2 0xBF && between 0x80 b3 0xBF then
          ((b0 - 0xF0) * 262144 + (b1 - 0x80) * 4096 + (b2 - 0x80) * 64 + (b3 - 0x80)) ::
            utf8DecodeAux fuel rest3
        else
          0xFFFD :: utf8DecodeAux fuel rest
      | _ => 0xFFFD :: utf8DecodeAux fuel rest
    else
      0xFFFD :: utf8DecodeAux fuel rest

/-- Decode a byte sequence into Unicode code points exactly as repeated
calls of Go's `utf8.DecodeRune` do (this is how the `golang.org/x/text`
GB18030 encoder consumes its input): a valid sequence yields its code
point, any invalid or truncated sequence yields U+FFFD and consumes one
byte. -/
def utf8Decode (s : List Nat) : List Nat :=
  utf8DecodeAux s.length s

/-- The four-byte GB18030 sequence with linear index `i` (index 0 is
`81 30 81 30`; the fourth byte cycles over 0x30..0x39, the third over
0x81..0xFE, the second over 0x30..0x39, the first over 0x81..0xFE). -/
def gb18030Four (i : Nat) : List Nat :=
  [0x81 + i / 12600, 0x30 + (i / 1260) % 10, 0x81 + (i / 10) % 126, 0x30 + i % 10]

/-- Modelled from the spec: `src/escpos/escpos.go` transcodes every text
write through the GB18030 encoder of `golang.org/x/text` (a library that is
not part of this repository); the spec describes it as "a
simplified-Chinese-compatible multi-byte encoding" under which "all bytes
< 0x80 are safe".  Accordingly, code points below 0x80 encode to
themselves.  U+0080..U+00A3 (no two-byte GBK code exists for them) are the
first four-byte GB18030 sequences, `81 30 81 30` onwards, and
U+FFFD..U+FFFF end the BMP four-byte range at `84 31 A4 37`..`84 31 A4 39`
(U+FFFD is what invalid UTF-8 input is replaced with).  Code points outside
these ranges are not exercised by any theorem in this development and are
conservatively mapped to the replacement sequence of U+FFFD. -/
def gb18030EncodeRune (c : Nat) : List Nat :=
  if c < 0x80 then [c]
  else if c ≤ 0xA3 then gb18030Four (c - 0x80)
  else if 0xFFFD ≤ c ∧ c ≤ 0xFFFF then gb18030Four (c - 0xFFFD + 39417)
  else gb18030Four 39417

/-- The bytes that reach the transport when the Go string with byte
sequence `s` is passed to `Escpos.Write`: UTF-8 decoding followed by
GB18030 encoding of every code point (the `transform.NewReader` /
`ioutil.ReadAll` pipeline in `Write`). -/
def writeString (s : List Nat) : List Nat :=
  (utf8Decode s).flatMap gb18030EncodeRune

/-- The bytes `fmt.Sprintf`'s `%c` verb contributes for the integer `n`
(Go `fmt.fmtC`): the UTF-8 encoding of the code point `n`, with anything
outside the valid range, and the surrogates, replaced by U+FFFD. -/
def fmtC (n : Int) : List Nat :=
  if n < 0 ∨ 0x10FFFF < n then utf8EncodeRune 0xFFFD
  else if 0xD800 ≤ n ∧ n ≤ 0xDFFF then utf8EncodeRune 0xFFFD
  else utf8EncodeRune n.toNat

/-- Worker for `decimalDigits`; `fuel` bounds the number of digits (any
`fuel` above the digit count gives the full rendering; structural
recursion on `fuel` keeps the function computable by the kernel). -/
def decimalDigitsAux : Nat → Nat → List Nat
  | 0, _ => []
  | fuel + 1, n =>
    if n < 10 then [0x30 + n]
    else decimalDigitsAux fuel (n / 10) ++ [0x30 + n % 10]

/-- The ASCII bytes of the decimal rendering of `n` (Go `fmt.Sprintf`'s
`%v` on a non-negative int, as used for `len(barcode)` in `Barcode`). -/
def decimalDigits (n : Nat) : List Nat :=
  decimalDigitsAux (n + 1) n

end Goesc

namespace Goesc

/-- ASCII DLE (DataLinkEscape), from the source's constant block. -/
def DLE : Nat := 0x10

/-- ASCII EOT (EndOfTransmission), from the source's constant block. -/
def EOT : Nat := 0x04

/-- ASCII GS (Group Separator), from the source's constant block. -/
def GS : Nat := 0x1D

/-- The in-memory style state of the encoder (`type Escpos struct`); the
`dst io.ReadWriter` transport is kept outside the state, every operation
instead returns the byte sequence it hands to the transport.  The Go
fields are `uint8`; they are modelled as `Nat` and only ever hold the
values the Go program can store in them. -/
structure Escpos where
  width : Nat
  height : Nat
  underline : Nat
  emphasize : Nat
  upsidedown : Nat
  rotate : Nat
  reverse : Nat
  smooth : Nat
deriving Repr, DecidableEq

namespace Escpos

/-- `func (e *Escpos) reset()`: width and height become 1, every toggle 0. -/
def reset (_ : Escpos) : Escpos :=
  { width := 1, height := 1, underline := 0, emphasize := 0,
    upsidedown := 0, rotate := 0, reverse := 0, smooth := 0 }

/-- `func New(dst io.ReadWriter) *Escpos`: a zero-valued struct followed by
`reset`. -/
def New : Escpos :=
  reset { width := 0, height := 0, underline := 0, emphasize := 0,
          upsidedown := 0, rotate := 0, reverse := 0, smooth := 0 }

/-- `func (e *Escpos) WriteRaw(data []byte) (n int, err error)`: when `data`
is non-empty it is handed to the transport; the transport's own result is
received but discarded, and `(0, nil)` is returned unconditionally.  The
first component is the byte sequence handed to the transport; the second is
the `(n, err)` pair returned to the caller (an error is `some` message).
`transportErr` stands for the error the transport's write would produce. -/
def WriteRaw (data : List Nat) (transportErr : Option String) :
    List Nat × Nat × Option String :=
  (if data.isEmpty then [] else data, 0, none)

/-- `func (e *Escpos) Write(data string) (int, error)`: the string is
transcoded through the GB18030 encoder (`bs, _ := ioutil.ReadAll(reader)`
discards any transcoding error, modelled by `transcodeErr`) and the result
is forwarded to `WriteRaw`. -/
def Write (s : List Nat) (transcodeErr : Option String) (transportErr : Option String) :
    List Nat × Nat × Option String :=
  WriteRaw (writeString s) transportErr

/-- `func (e *Escpos) Init()`: `reset` followed by `Write("\x1B@")`. -/
def Init (e : Escpos) : Escpos × List Nat :=
  (reset e, writeString [0x1B, 0x40])

/-- `func (e *Escpos) End()`: `Write("\xFA")`. -/
def End (e : Escpos) : Escpos × List Nat :=
  (e, writeString [0xFA])

/-- `func (e *Escpos) Cash()`: `Write("\x1B\x70\x00\x0A\xFF")`. -/
def Cash (e : Escpos) : Escpos × List Nat :=
  (e, writeString [0x1B, 0x70, 0x00, 0x0A, 0xFF])

/-- `func (e *Escpos) FormfeedN(n int)`: `Write(fmt.Sprintf("\x1Bd%c", n))`. -/
def FormfeedN (e : Escpos) (n : Int) : Escpos × List Nat :=
  (e, writeString ([0x1B, 0x64] ++ fmtC n))

/-- `func (e *Escpos) SendFontSize()`:
`Write(fmt.Sprintf("\x1D!%c", ((e.width)<<4)|(e.height)))`; the shift and
the or are `uint8` operations, hence the reduction modulo 256. -/
def SendFontSize (e : Escpos) : Escpos × List Nat :=
  (e, writeString ([0x1D, 0x21] ++ fmtC ((((e.width <<< 4) % 256) ||| e.height : Nat) : Int)))

/-- `func (e *Escpos) SetFontSize(width, height uint8)`: the source guard
is `width >= 0 && height >= 0 && width < 8 && height < 8`; the two `>= 0`
conjuncts are trivially true for `uint8` values.  In range, both fields are
updated and `SendFontSize` runs; out of range, nothing happens. -/
def SetFontSize (e : Escpos) (width height : Nat) : Escpos × List Nat :=
  if width < 8 ∧ height < 8 then
    SendFontSize { e with width := width, height := height }
  else
    (e, [])

/-- `func (e *Escpos) SendUnderline()`: `Write(fmt.Sprintf("\x1B-%c", e.underline))`. -/
def SendUnderline (e : Escpos) : Escpos × List Nat :=
  (e, writeString ([0x1B, 0x2D] ++ fmtC ((e.underline : Int))))

/-- `func (e *Escpos) SendEmphasize()`: `Write(fmt.Sprintf("\x1BG%c", e.emphasize))`. -/
def SendEmphasize (e : Escpos) : Escpos × List Nat :=
  (e, writeString ([0x1B, 0x47] ++ fmtC ((e.emphasize : Int))))

/-- `func (e *Escpos) SendUpsidedown()`: `Write(fmt.Sprintf("\x1B{%c", e.upsidedown))`. -/
def SendUpsidedown (e : Escpos) : Escpos × List Nat :=
  (e, writeString ([0x1B, 0x7B] ++ fmtC ((e.upsidedown : Int))))

/-- `func (e *Escpos) SendRotate()`: `Write(fmt.Sprintf("\x1BR%c", e.rotate))`. -/
def SendRotate (e : Escpos) : Escpos × List Nat :=
  (e, writeString ([0x1B, 0x52] ++ fmtC ((e.rotate : Int))))

/-- `func (e *Escpos) SendReverse()`: `Write(fmt.Sprintf("\x1DB%c", e.reverse))`. -/
def SendReverse (e : Escpos) : Escpos × List Nat :=
  (e, writeString ([0x1D, 0x42] ++ fmtC ((e.reverse : Int))))

/-- `func (e *Escpos) SendSmooth()`: `Write(fmt.Sprintf("\x1Db%c", e.smooth))`. -/
def SendSmooth (e : Escpos) : Escpos × List Nat :=
  (e, writeString ([0x1D, 0x62] ++ fmtC ((e.smooth : Int))))

/-- `func (e *Escpos) SetUnderline(v uint8)`: store `v`, then `SendUnderline`. -/
def SetUnderline (e : Escpos) (v : Nat) : Escpos × List Nat :=
  SendUnderline { e with underline := v }

/-- `func (e *Escpos) SetEmphasize(u uint8)`: store `u`, then `SendEmphasize`. -/
def SetEmphasize (e : Escpos) (u : Nat) : Escpos × List Nat :=
  SendEmphasize { e with emphasize := u }

/-- `func (e *Escpos) SetUpsidedown(v uint8)`: store `v`, then `SendUpsidedown`. -/
def SetUpsidedown (e : Escpos) (v : Nat) : Escpos × List Nat :=
  SendUpsidedown { e with upsidedown := v }

/-- `func (e *Escpos) SetRotate(v uint8)`: store `v`, then `SendRotate`. -/
def SetRotate (e : Escpos) (v : Nat) : Escpos × List Nat :=
  SendRotate { e with rotate := v }

/-- `func (e *Escpos) SetReverse(v uint8)`: store `v`, then `SendReverse`. -/
def SetReverse (e : Escpos) (v : Nat) : Escpos × List Nat :=
  SendReverse { e with reverse := v }

/-- `func (e *Escpos) SetSmooth(v uint8)`: store `v`, then `SendSmooth`. -/
def SetSmooth (e : Escpos) (v : Nat) : Escpos × List Nat :=
  SendSmooth { e with smooth := v }

/-- The alignment index of `SetAlign`'s `switch`: "left" 0, "center" 1,
"right" 2, anything else leaves the zero-initialised `a` at 0. -/
def alignIndex (align : String) : Nat :=
  match align with
  | "left" => 0
  | "center" => 1
  | "right" => 2
  | _ => 0

/-- `func (e *Escpos) SetAlign(align string)`:
`Write(fmt.Sprintf("\x1Ba%c", a))` with `a` from the switch above. -/
def SetAlign (e : Escpos) (align : String) : Escpos × List Nat :=
  (e, writeString ([0x1B, 0x61] ++ fmtC ((alignIndex align : Int))))

/-- The barcode type byte of `Barcode`'s `switch format`: 0..4 map to the
bytes 0x00..0x04, 73 maps to 0x49, every other format leaves `code` as the
empty string. -/
def barcodeCode (format : Int) : List Nat :=
  if format = 0 then [0x00]
  else if format = 1 then [0x01]
  else if format = 2 then [0x02]
  else if format = 3 then [0x03]
  else if format = 4 then [0x04]
  else if format = 73 then [0x49]
  else []

/-- `func (e *Escpos) Barcode(barcode string, format int)`: look up the
type byte, `reset` the style state, send the center-alignment command,
then (depending on `format`) send the framed payload
`GS k <code> <len as decimal text> <barcode>` (format > 69) or
`GS k <code> <barcode> NUL` (format < 69) or nothing (format == 69), and
finally `Write(fmt.Sprintf("%v", barcode))` once more.  `bc` is the byte
sequence of the Go string `barcode`; `len(barcode)` is its length. -/
def Barcode (e : Escpos) (bc : List Nat) (format : Int) : Escpos × List Nat :=
  let e2 := reset e
  let a := SetAlign e2 ("center")
  let frame :=
    if format > 69 then
      writeString ([0x1D, 0x6B] ++ barcodeCode format ++ decimalDigits bc.length ++ bc)
    else if format < 69 then
      writeString ([0x1D, 0x6B] ++ barcodeCode format ++ bc ++ [0x00])
    else []
  (a.1, a.2 ++ frame ++ writeString bc)

/-- `func (e *Escpos) gSend(m byte, fn byte, data []byte)`: with
`l := len(data) + 2`, send `Write("\x1b(L")`, then
`WriteRaw([]byte{byte(l % 256), byte(l / 256), m, fn})` (the second `byte`
conversion truncates modulo 256), then `WriteRaw(data)`. -/
def gSend (e : Escpos) (m fn : Nat) (data : List Nat) : Escpos × List Nat :=
  (e, writeString [0x1B, 0x28, 0x4C] ++
      [(data.length + 2) % 256, ((data.length + 2) / 256) % 256, m, fn] ++ data)

/-- `func (e *Escpos) ReadStatus(n byte) (byte, error)`: send
`WriteRaw([]byte{DLE, EOT, n})`, then perform exactly one 1-byte read on
the transport; a read error is returned as is, otherwise the byte read is
returned.  `readRes` is what the transport's read produces; the result is
the triple (bytes written, number of reads performed, returned value). -/
def ReadStatus (n : Nat) (readRes : Except String Nat) :
    List Nat × Nat × Except String Nat :=
  let written := [DLE, EOT, n]
  match readRes with
  | Except.error err => (written, 1, Except.error err)
  | Except.ok b => (written, 1, Except.ok b)

end Escpos

/-! ### ASCII transparency of the write path

Every byte below 0x80 survives the UTF-8 decode / GB18030 encode pipeline
of `Escpos.Write` unchanged. -/

theorem utf8EncodeRune_ascii {c : Nat} (hc : c < 0x80) : utf8EncodeRune c = [c] := by
  unfold utf8EncodeRune
  rw [if_pos hc]

theorem gb18030EncodeRune_ascii {c : Nat} (hc : c < 0x80) : gb18030EncodeRune c = [c] := by
  unfold gb18030EncodeRune
  rw [if_pos hc]

theorem utf8DecodeAux_ascii (fuel : Nat) :
    ∀ s : List Nat, (∀ b ∈ s, b < 0x80) → s.length ≤ fuel → utf8DecodeAux fuel s = s := by
  induction fuel with
  | zero =>
    intro s h hf
    match s with
    | [] => rfl
    | b :: rest => simp at hf
  | succ fuel ih =>
    intro s h hf
    match s with
    | [] => rfl
    | b :: rest =>
      have hb : b < 0x80 := h b (List.mem_cons_self b rest)
      show (if b < 0x80 then b :: utf8DecodeAux fuel rest else _) = b :: rest
      rw [if_pos hb,
        ih rest (fun x hx => h x (List.mem_cons_of_mem b hx)) (by simp at hf; omega)]

theorem utf8Decode_ascii {s : List Nat} (h : ∀ b ∈ s, b < 0x80) : utf8Decode s = s :=
  utf8DecodeAux_ascii s.length s h (Nat.le_refl _)

theorem flatMap_gb18030_ascii {s : List Nat} (h : ∀ b ∈ s, b < 0x80) :
    s.flatMap gb18030EncodeRune = s := by
  induction s with
  | nil => rfl
  | cons b rest ih =>
    rw [List.flatMap_cons, gb18030EncodeRune_ascii (h b (List.mem_cons_self b rest)),
      ih (fun x hx => h x (List.mem_cons_of_mem b hx))]
    rfl

theorem writeString_ascii {s : List Nat} (h : ∀ b ∈ s, b < 0x80) : writeString s = s := by
  unfold writeString
  rw [utf8Decode_ascii h, flatMap_gb18030_ascii h]

theorem fmtC_ascii {c : Nat} (hc : c < 0x80) : fmtC ((c : Int)) = [c] := by
  unfold fmtC
  rw [if_neg (by omega), if_neg (by omega)]
  have ht : ((c : Int)).toNat = c := by omega
  rw [ht, utf8EncodeRune_ascii hc]

theorem decimalDigitsAux_ascii (fuel : Nat) :
    ∀ n : Nat, ∀ b ∈ decimalDigitsAux fuel n, b < 0x80 := by
  induction fuel with
  | zero =>
    intro n b hb
    simp [decimalDigitsAux] at hb
  | succ fuel ih =>
    intro n b hb
    by_cases hn : n < 10
    · rw [decimalDigitsAux, if_pos hn] at hb
      simp at hb
      omega
    · rw [decimalDigitsAux, if_neg hn] at hb
      rcases List.mem_append.mp hb with hmem | hmem
      · exact ih (n / 10) b hmem
      · simp at hmem
        omega

theorem decimalDigits_ascii (n : Nat) : ∀ b ∈ decimalDigits n, b < 0x80 :=
  decimalDigitsAux_ascii (n + 1) n

theorem barcodeCode_ascii (format : Int) : ∀ b ∈ Escpos.barcodeCode format, b < 0x80 := by
  unfold Escpos.barcodeCode
  split_ifs <;> intro b hb <;> simp at hb <;> omega

/-- A two-byte command followed by a `%c` parameter below 0x80 reaches the
transport verbatim. -/
theorem writeCmd_ascii {a b v : Nat} (ha : a < 0x80) (hb : b < 0x80) (hv : v < 0x80) :
    writeString ([a, b] ++ fmtC ((v : Int))) = [a, b, v] := by
  rw [fmtC_ascii hv]
  exact writeString_ascii (by intro x hx; simp at hx; rcases hx with h | h | h <;> omega)

/-- The state that holds after a reset: font scale (1,1), all toggles 0. -/
def stateDefaults (e : Escpos) : Prop :=
  e.width = 1 ∧ e.height = 1 ∧ e.underline = 0 ∧ e.emphasize = 0 ∧
    e.upsidedown = 0 ∧ e.rotate = 0 ∧ e.reverse = 0 ∧ e.smooth = 0

/-! ### The claims -/

/-- Claim C1: for width and height each in [0,7], `SetFontSize` stores both
fields and transmits the single command `GS ! ((width<<4)|height)`, whose
parameter is the packed byte, exactly once; if either argument is at least
8, nothing is transmitted and the state is unchanged. -/
theorem spec_C1_setFontSize (e : Escpos) (w h : Nat) :
    (w < 8 → h < 8 →
      Escpos.SetFontSize e w h =
        ({ e with width := w, height := h }, [0x1D, 0x21, (w <<< 4) ||| h]))
  ∧ (8 ≤ w ∨ 8 ≤ h → Escpos.SetFontSize e w h = (e, [])) := by
  constructor
  · intro hw hh
    have hsh : w <<< 4 < 128 := by omega
    have hpk : (w <<< 4) ||| h < 0x80 :=
      @Nat.or_lt_two_pow (w <<< 4) h 7 hsh (by omega)
    unfold Escpos.SetFontSize Escpos.SendFontSize
    rw [if_pos ⟨hw, hh⟩]
    dsimp only
    rw [Nat.mod_eq_of_lt (by omega), writeCmd_ascii (by omega) (by omega) hpk]
  · intro hwh
    unfold Escpos.SetFontSize
    rw [if_neg (by omega)]

/-- Witness for C1 at width 2, height 3 (in range) and width 9 (out of
range). -/
theorem spec_C1_witness :
    Escpos.SetFontSize Escpos.New 2 3 =
      ({ Escpos.New with width := 2, height := 3 }, [0x1D, 0x21, 0x23])
  ∧ Escpos.SetFontSize Escpos.New 9 1 = (Escpos.New, []) :=
  ⟨(spec_C1_setFontSize Escpos.New 2 3).1 (by decide) (by decide),
    (spec_C1_setFontSize Escpos.New 9 1).2 (Or.inl (by decide))⟩

/-- Claim C2: immediately after construction (`New`) and immediately after
any internal reset (`reset` itself, `Init`, `Barcode`), the state satisfies
width = height = 1 and every toggle = 0. -/
theorem spec_C2_reset_state :
    stateDefaults Escpos.New
  ∧ (∀ e : Escpos, stateDefaults (Escpos.reset e))
  ∧ (∀ e : Escpos, stateDefaults (Escpos.Init e).1)
  ∧ (∀ (e : Escpos) (bc : List Nat) (format : Int),
      stateDefaults (Escpos.Barcode e bc format).1) :=
  ⟨⟨rfl, rfl, rfl, rfl, rfl, rfl, rfl, rfl⟩,
    fun _ => ⟨rfl, rfl, rfl, rfl, rfl, rfl, rfl, rfl⟩,
    fun _ => ⟨rfl, rfl, rfl, rfl, rfl, rfl, rfl, rfl⟩,
    fun _ _ _ => ⟨rfl, rfl, rfl, rfl, rfl, rfl, rfl, rfl⟩⟩

/-- Claim C3 (the code at the claim's input): `End()` does not write the
single byte 0xFA — 0xFA is not valid UTF-8, so the GB18030 transcoding
inside `Write` replaces it with the four-byte sequence for U+FFFD; for the
same reason `Cash()` writes `1B 70 00 0A` followed by that replacement
sequence instead of the final 0xFF the wire-format table lists. -/
theorem spec_C3_end_cash_transcoded :
    (Escpos.End Escpos.New).2 = [0x84, 0x31, 0xA4, 0x37]
  ∧ (Escpos.End Escpos.New).2 ≠ [0xFA]
  ∧ (Escpos.Cash Escpos.New).2 = [0x1B, 0x70, 0x00, 0x0A, 0x84, 0x31, 0xA4, 0x37]
  ∧ (Escpos.Cash Escpos.New).2 ≠ [0x1B, 0x70, 0x00, 0x0A, 0xFF] := by
  refine ⟨rfl, by decide, rfl, by decide⟩

/-- Claim C4, amended: for n in [0,127], `FormfeedN(n)` transmits exactly
`ESC d <n>` with a single count byte; larger (or invalid) values are not
truncated to one byte but expand to the multi-byte GB18030 encoding of the
code point n (see the counterexample at n = 128). -/
theorem spec_C4_formfeedN (e : Escpos) (n : Int) (h0 : 0 ≤ n) (h1 : n < 128) :
    Escpos.FormfeedN e n = (e, [0x1B, 0x64, n.toNat]) := by
  unfold Escpos.FormfeedN
  have hf : fmtC n = [n.toNat] := by
    unfold fmtC
    rw [if_neg (by omega), if_neg (by omega), utf8EncodeRune_ascii (by omega)]
  rw [hf]
  have hws : writeString [0x1B, 0x64, n.toNat] = [0x1B, 0x64, n.toNat] :=
    writeString_ascii (by intro x hx; simp at hx; rcases hx with h | h | h <;> omega)
  rw [show ([0x1B, 0x64] ++ [n.toNat] : List Nat) = [0x1B, 0x64, n.toNat] from rfl, hws]

/-- Witness for C4 at n = 10. -/
theorem spec_C4_witness :
    Escpos.FormfeedN Escpos.New 10 = (Escpos.New, [0x1B, 0x64, 10]) :=
  spec_C4_formfeedN Escpos.New 10 (by decide) (by decide)

/-- Counterexample for C4 as stated: `FormfeedN(128)` does not transmit
`ESC d` plus one count byte; `%c` renders 128 as U+0080, which the GB18030
transcoding expands to the four bytes `81 30 81 30`. -/
theorem spec_C4_counterexample :
    (Escpos.FormfeedN Escpos.New 128).2 = [0x1B, 0x64, 0x81, 0x30, 0x81, 0x30]
  ∧ (Escpos.FormfeedN Escpos.New 128).2 ≠ [0x1B, 0x64, 128] := by
  refine ⟨rfl, by decide⟩

/-- Claim C5, amended: every toggle setter stores its argument in the
matching field, and for v in [0,127] the transmitted command carries the
parameter byte exactly v; for larger v the parameter expands to a
multi-byte GB18030 sequence (see the counterexample at v = 128). -/
theorem spec_C5_toggle_setters (e : Escpos) (v : Nat) :
    ((Escpos.SetUnderline e v).1.underline = v
      ∧ (Escpos.SetEmphasize e v).1.emphasize = v
      ∧ (Escpos.SetUpsidedown e v).1.upsidedown = v
      ∧ (Escpos.SetRotate e v).1.rotate = v
      ∧ (Escpos.SetReverse e v).1.reverse = v
      ∧ (Escpos.SetSmooth e v).1.smooth = v)
  ∧ (v < 0x80 →
      (Escpos.SetUnderline e v).2 = [0x1B, 0x2D, v]
      ∧ (Escpos.SetEmphasize e v).2 = [0x1B, 0x47, v]
      ∧ (Escpos.SetUpsidedown e v).2 = [0x1B, 0x7B, v]
      ∧ (Escpos.SetRotate e v).2 = [0x1B, 0x52, v]
      ∧ (Escpos.SetReverse e v).2 = [0x1D, 0x42, v]
      ∧ (Escpos.SetSmooth e v).2 = [0x1D, 0x62, v]) := by
  refine ⟨⟨rfl, rfl, rfl, rfl, rfl, rfl⟩, fun hv => ?_⟩
  exact ⟨writeCmd_ascii (by omega) (by omega) hv, writeCmd_ascii (by omega) (by omega) hv,
    writeCmd_ascii (by omega) (by omega) hv, writeCmd_ascii (by omega) (by omega) hv,
    writeCmd_ascii (by omega) (by omega) hv, writeCmd_ascii (by omega) (by omega) hv⟩

/-- Witness for C5 at v = 5 (underline) and v = 7 (smooth). -/
theorem spec_C5_witness :
    (Escpos.SetUnderline Escpos.New 5).1.underline = 5
  ∧ (Escpos.SetUnderline Escpos.New 5).2 = [0x1B, 0x2D, 5]
  ∧ (Escpos.SetSmooth Escpos.New 7).2 = [0x1D, 0x62, 7] :=
  ⟨(spec_C5_toggle_setters Escpos.New 5).1.1,
    ((spec_C5_toggle_setters Escpos.New 5).2 (by decide)).1,
    ((spec_C5_toggle_setters Escpos.New 7).2 (by decide)).2.2.2.2.2⟩

/-- Counterexample for C5 as stated: `SetUnderline(128)` does not embed the
parameter byte 128 in the transmitted command; the value is rendered as
U+0080 and transcoded to the four GB18030 bytes `81 30 81 30`. -/
theorem spec_C5_counterexample :
    (Escpos.SetUnderline Escpos.New 128).2 = [0x1B, 0x2D, 0x81, 0x30, 0x81, 0x30]
  ∧ (Escpos.SetUnderline Escpos.New 128).2 ≠ [0x1B, 0x2D, 128] := by
  refine ⟨rfl, by decide⟩

/-- Claim C6, amended: for barcode text consisting of bytes below 0x80,
`Barcode` resets the style state, transmits the center-alignment command,
then the `GS k` frame selected by the format (length-as-decimal-text for
format > 69, NUL-terminated for format < 69, nothing for format 69), and
finally the raw barcode text once more; non-ASCII text is transcoded to
GB18030 on transmission instead of passing through verbatim (see the
counterexample). -/
theorem spec_C6_barcode (e : Escpos) (bc : List Nat) (format : Int)
    (h : ∀ b ∈ bc, b < 0x80) :
    Escpos.Barcode e bc format =
      (Escpos.reset e,
        [0x1B, 0x61, 0x01] ++
          (if format > 69 then
            [0x1D, 0x6B] ++ Escpos.barcodeCode format ++ decimalDigits bc.length ++ bc
          else if format < 69 then
            [0x1D, 0x6B] ++ Escpos.barcodeCode format ++ bc ++ [0x00]
          else []) ++ bc) := by
  have hbc : writeString bc = bc := writeString_ascii h
  have hframe1 : writeString ([0x1D, 0x6B] ++ Escpos.barcodeCode format ++
      decimalDigits bc.length ++ bc) =
      [0x1D, 0x6B] ++ Escpos.barcodeCode format ++ decimalDigits bc.length ++ bc := by
    refine writeString_ascii ?_
    intro x hx
    simp only [List.append_assoc, List.mem_append] at hx
    rcases hx with hx | hx | hx | hx
    · simp at hx; rcases hx with h1 | h1 <;> omega
    · exact barcodeCode_ascii format x hx
    · exact decimalDigits_ascii bc.length x hx
    · exact h x hx
  have hframe2 : writeString ([0x1D, 0x6B] ++ Escpos.barcodeCode format ++ bc ++ [0x00]) =
      [0x1D, 0x6B] ++ Escpos.barcodeCode format ++ bc ++ [0x00] := by
    refine writeString_ascii ?_
    intro x hx
    simp only [List.append_assoc, List.mem_append] at hx
    rcases hx with hx | hx | hx | hx
    · simp at hx; rcases hx with h1 | h1 <;> omega
    · exact barcodeCode_ascii format x hx
    · exact h x hx
    · simp at hx; omega
  unfold Escpos.Barcode Escpos.SetAlign
  dsimp only
  rw [hbc,
    show writeString ([0x1B, 0x61] ++ fmtC ((Escpos.alignIndex ("center") : Int))) =
      [0x1B, 0x61, 0x01] from rfl]
  by_cases h1 : format > 69
  · rw [if_pos h1, if_pos h1, hframe1]
  · rw [if_neg h1, if_neg h1]
    by_cases h2 : format < 69
    · rw [if_pos h2, if_pos h2, hframe2]
    · rw [if_neg h2, if_neg h2]

/-- Witness for C6: `Barcode("12345", 3)` transmits the centering command,
the NUL-terminated `GS k 3` frame, and the text once more. -/
theorem spec_C6_witness :
    Escpos.Barcode Escpos.New [0x31, 0x32, 0x33, 0x34, 0x35] 3 =
      (Escpos.reset Escpos.New,
        [0x1B, 0x61, 0x01, 0x1D, 0x6B, 0x03, 0x31, 0x32, 0x33, 0x34, 0x35, 0x00,
          0x31, 0x32, 0x33, 0x34, 0x35]) :=
  (spec_C6_barcode Escpos.New [0x31, 0x32, 0x33, 0x34, 0x35] 3 (by decide)).trans (by decide)

/-- Counterexample for C6 as stated: a barcode value containing the
non-ASCII character U+0080 (Go string bytes `C2 80`) is not transmitted
verbatim — both the frame and the trailing re-emission carry its GB18030
encoding `81 30 81 30` instead of the raw bytes. -/
theorem spec_C6_counterexample :
    (Escpos.Barcode Escpos.New [0xC2, 0x80] 3).2 =
      [0x1B, 0x61, 0x01, 0x1D, 0x6B, 0x03, 0x81, 0x30, 0x81, 0x30, 0x00,
        0x81, 0x30, 0x81, 0x30]
  ∧ (Escpos.Barcode Escpos.New [0xC2, 0x80] 3).2 ≠
      [0x1B, 0x61, 0x01] ++ ([0x1D, 0x6B, 0x03] ++ [0xC2, 0x80] ++ [0x00]) ++ [0xC2, 0x80] := by
  refine ⟨rfl, by decide⟩

/-- Claim C7: `gSend(m, fn, data)` transmits the graphics prefix
`ESC ( L`, then the header `[(L+2)%256, (L+2)/256, m, fn]`, then the data
unmodified (stated for data lengths whose 16-bit length field does not
overflow, so that the claim's `(L+2)/256` is itself a byte). -/
theorem spec_C7_gSend (e : Escpos) (m fn : Nat) (data : List Nat)
    (h : data.length + 2 < 65536) :
    Escpos.gSend e m fn data =
      (e, [0x1B, 0x28, 0x4C] ++
          [(data.length + 2) % 256, (data.length + 2) / 256, m, fn] ++ data) := by
  unfold Escpos.gSend
  rw [Nat.mod_eq_of_lt (show (data.length + 2) / 256 < 256 by omega),
    show writeString [0x1B, 0x28, 0x4C] = [0x1B, 0x28, 0x4C] from rfl]

/-- Witness for C7 with a 2-byte payload. -/
theorem spec_C7_witness :
    Escpos.gSend Escpos.New 48 50 [0xAB, 0xCD] =
      (Escpos.New, [0x1B, 0x28, 0x4C, 4, 0, 48, 50, 0xAB, 0xCD]) :=
  (spec_C7_gSend Escpos.New 48 50 [0xAB, 0xCD] (by decide)).trans (by decide)

/-- Claim C8: `ReadStatus(n)` writes exactly `DLE EOT n`, performs exactly
one 1-byte read, and returns the read's error unchanged or the byte read. -/
theorem spec_C8_readStatus (n : Nat) (readRes : Except String Nat) :
    (Escpos.ReadStatus n readRes).1 = [0x10, 0x04, n]
  ∧ (Escpos.ReadStatus n readRes).2.1 = 1
  ∧ (Escpos.ReadStatus n readRes).2.2 = readRes := by
  cases readRes <;> exact ⟨rfl, rfl, rfl⟩

/-- Claim C9: `WriteRaw` and `Write` return `(0, nil)` whatever the
transport write or the transcoding would report; no error is surfaced. -/
theorem spec_C9_write_returns_nil (data s : List Nat)
    (transcodeErr transportErr : Option String) :
    (Escpos.WriteRaw data transportErr).2 = (0, none)
  ∧ (Escpos.Write s transcodeErr transportErr).2 = (0, none) :=
  ⟨rfl, rfl⟩

/-- Claim C10: each toggle setter changes only its own field — the
resulting state is exactly the input state with that single field
replaced. -/
theorem spec_C10_frame_effect (e : Escpos) (v : Nat) :
    (Escpos.SetUnderline e v).1 = { e with underline := v }
  ∧ (Escpos.SetEmphasize e v).1 = { e with emphasize := v }
  ∧ (Escpos.SetUpsidedown e v).1 = { e with upsidedown := v }
  ∧ (Escpos.SetRotate e v).1 = { e with rotate := v }
  ∧ (Escpos.SetReverse e v).1 = { e with reverse := v }
  ∧ (Escpos.SetSmooth e v).1 = { e with smooth := v } :=
  ⟨rfl, rfl, rfl, rfl, rfl, rfl⟩

end Goesc
